import Mathlib

set_option maxRecDepth 8192

/-!
Verification of the bob-control session core against its source.

The development shallowly embeds the parts of the repository the properties
talk about:

* `Room` request-lifecycle state machine (src/server/room.js): status string,
  bounded message history, pending-request tracking, the send/timeout/cancel
  race, `cancel`, `resetStatus`, and the agent event callbacks installed by
  `setAgent`.
* `GitManager` worktree creation/removal (src/git/index.js), with the
  filesystem and the git subprocess abstracted into explicit inputs
  (realpath resolution results, git command outcomes).
* `BobServer.sanitizeError` and the websocket error path (src/server/index.js).
* The room auto-naming helper, which is referenced by its unit tests but not
  present in the source tree; it is modelled from the specification.

Asynchronous execution is embedded by splitting `sendToAgent` into its
synchronous prefix (`sendStart`, everything up to the `Promise.race`) and the
settlement continuation (`settle`, the `try`/`catch`/`finally` that runs when
one of the three racers fires).  A room history is a list, oldest first, as in
the source.
-/

namespace BobControl

/-! ### Generic string helpers (JS `String.prototype.includes` etc.) -/

/-- Does `pre` occur at the head of `l`? (char-list version of startsWith). -/
def listStarts : List Char → List Char → Bool
  | [], _ => true
  | _ :: _, [] => false
  | a :: as, b :: bs => a == b && listStarts as bs

/-- Does `needle` occur anywhere inside `hay`? -/
def listHas (needle : List Char) : List Char → Bool
  | [] => listStarts needle []
  | c :: rest => listStarts needle (c :: rest) || listHas needle rest

/-- JS `hay.includes(needle)`. -/
def substrHas (hay needle : String) : Bool :=
  listHas needle.data hay.data


/-! ### Room data model (src/server/room.js) -/

/-- One entry of `this.messages`.  The source also stores a uuid and a
timestamp; they play no role in any property and are omitted. -/
structure Msg where
  role : String
  content : String
deriving Repr, DecidableEq

/-- The mutable state of a `Room` that the verified operations touch.

`flight` models the closure state of one in-flight `sendToAgent` call: `none`
when no send is racing, `some cancelled` when one is (the `Bool` is the
closure-captured `cancelled` flag that `currentRequest.cancel()` sets).
`reqPresent` models `this.currentRequest !== null`; `resetStatus` clears the
field while the race of the orphaned send keeps running, which is why the two
are tracked separately.  `procRunning` models whether the agent subprocess is
alive. -/
structure RoomState where
  status : String
  messages : List Msg
  reqPresent : Bool
  flight : Option Bool
  procRunning : Bool
  requestTimeout : Nat
  maxMessages : Nat
  agentAttached : Bool
deriving Repr, DecidableEq

/-- The `while (this.messages.length > this.maxMessages) this.messages.shift()`
loop of `addMessage`: drop from the front while over capacity. -/
def trimHistory (maxMessages : Nat) : List Msg → List Msg
  | [] => []
  | m :: rest =>
    if (m :: rest).length > maxMessages then trimHistory maxMessages rest
    else m :: rest

/-- `Room.addMessage(role, content)`: push, then trim to `maxMessages`. -/
def addMsgRecord (s : RoomState) (m : Msg) : RoomState :=
  { s with messages := trimHistory s.maxMessages (s.messages ++ [m]) }

def addMessage (s : RoomState) (role content : String) : RoomState :=
  addMsgRecord s ⟨role, content⟩

def noAgentErrText : String := "No agent attached to room"

def busyErrText : String := "Agent is busy processing. Use /cancel to abort."

/-- The synchronous prefix of `Room.sendToAgent` (room.js lines 123-158): the
no-agent guard, the busy guard, the transition to `busy`, the `user` message
append, and the creation of `currentRequest` with its un-cancelled closure
flag.  A thrown guard leaves the state untouched, exactly as in the source
where both throws precede every mutation. -/
def sendStart (s : RoomState) (content : String) : Except String RoomState :=
  if !s.agentAttached then .error noAgentErrText
  else if s.status == "busy" then .error busyErrText
  else
    let s1 := addMessage { s with status := "busy" } "user" content
    .ok { s1 with flight := some false, reqPresent := true }

/-- Which of the three racers of the `Promise.race` settles the call. -/
inductive Outcome where
  /-- `this.agent.send(content)` resolved with a reply. -/
  | success (resp : String)
  /-- the timeout racer rejected. -/
  | timeout
  /-- the cancellation-polling racer rejected (fires only after `cancel()`). -/
  | cancelledReject
  /-- `this.agent.send(content)` rejected. -/
  | agentFailure (msg : String)
deriving Repr, DecidableEq

def timeoutErrText (requestTimeout : Nat) : String :=
  "Request timed out after " ++ toString (requestTimeout / 1000) ++ "s"

def cancelledErrText : String := "Request cancelled"

/-- The error message carried by a non-success outcome. -/
def outcomeErrText (requestTimeout : Nat) : Outcome → String
  | .success r => r
  | .timeout => timeoutErrText requestTimeout
  | .cancelledReject => cancelledErrText
  | .agentFailure m => m

/-- The settlement of one in-flight send (room.js lines 159-208): the tail of
the `try` on success, the `catch` on any rejection, and the `finally` in both
cases.  On success: status becomes `ready` and the reply is returned.  On any
rejection: the subprocess is killed, status becomes `ready` when the closure
`cancelled` flag was set and `error` otherwise, and a `system` message is
appended.  The `finally` clears `currentRequest` either way.  When no send is
in flight the function is the identity (a settlement is always the
continuation of an actual in-flight send). -/
def settle (s : RoomState) (o : Outcome) : RoomState × Except String String :=
  match s.flight with
  | none => (s, .error noAgentErrText)
  | some cancelled =>
    match o with
    | .success resp =>
      ({ s with status := "ready", flight := none, reqPresent := false }, .ok resp)
    | o' =>
      let errText := outcomeErrText s.requestTimeout o'
      let s1 := { s with procRunning := false,
                         status := if cancelled then "ready" else "error" }
      let s2 := addMessage s1 "system" ("Error: " ++ errText)
      ({ s2 with flight := none, reqPresent := false }, .error errText)

/-- `Room.cancel()` (room.js lines 214-221): when `currentRequest` exists, run
its `cancel` closure (set the cancelled flag, clear the timer, kill the
subprocess), append a `system` message and return true; otherwise return
false without touching anything. -/
def cancel (s : RoomState) : Bool × RoomState :=
  if s.reqPresent then
    let s1 := { s with flight := s.flight.map (fun _ => true), procRunning := false }
    (true, addMessage s1 "system" cancelledErrText)
  else (false, s)

/-- `Room.resetStatus()` (room.js lines 226-247): best-effort kill, clear
`currentRequest`, force status `ready`, append a `system` message. -/
def resetStatus (s : RoomState) : Bool × RoomState :=
  let s1 := { s with procRunning := false, reqPresent := false, status := "ready" }
  (true, addMessage s1 "system" "Room status reset to ready")

/-- The status values the agent adapters in src/agents emit on their `status`
event (`ready`, `busy`, `error`, `stopped` — established by inspection of
base.js, gemini.js and the claude adapter; no other value is ever emitted). -/
inductive AgentStatus where
  | ready
  | busy
  | error
  | stopped
deriving Repr, DecidableEq

def AgentStatus.toStr : AgentStatus → String
  | .ready => "ready"
  | .busy => "busy"
  | .error => "error"
  | .stopped => "stopped"

/-- The `agent.on('status', ...)` callback installed by `setAgent`
(room.js lines 47-55): the room status is overwritten with whatever the agent
emitted. -/
def agentStatusEvt (s : RoomState) (a : AgentStatus) : RoomState :=
  { s with status := a.toStr }

/-- The `agent.on('message', ...)` callback (room.js lines 30-32). -/
def agentMessageEvt (s : RoomState) (m : String) : RoomState :=
  addMessage s "agent" m

/-- The `agent.on('error', ...)` callback (room.js lines 43-45). -/
def agentErrorEvt (s : RoomState) (e : String) : RoomState :=
  addMessage s "system" ("Agent error: " ++ e)

/-- The operations that mutate a room once it is set up: the two halves of
`sendToAgent`, `cancel`, `resetStatus`, and the agent event callbacks. -/
inductive Op where
  | send (content : String)
  | settleEvt (o : Outcome)
  | cancelOp
  | resetOp
  | agentStatus (a : AgentStatus)
  | agentMsg (m : String)
  | agentErr (e : String)
deriving Repr, DecidableEq

def Op.isAgentStatusEvt : Op → Bool
  | .agentStatus _ => true
  | _ => false

def applyOp (s : RoomState) : Op → RoomState
  | .send c =>
    match sendStart s c with
    | .ok s' => s'
    | .error _ => s
  | .settleEvt o => (settle s o).1
  | .cancelOp => (cancel s).2
  | .resetOp => (resetStatus s).2
  | .agentStatus a => agentStatusEvt s a
  | .agentMsg m => agentMessageEvt s m
  | .agentErr e => agentErrorEvt s e

/-- A room right after the constructor (`status = 'initializing'`) followed by
the one `setAgent` call the manager performs (`status = 'ready'`), before any
client or message traffic. -/
def readyRoom (requestTimeout maxMessages : Nat) : RoomState :=
  { status := "ready", messages := [], reqPresent := false, flight := none,
    procRunning := true, requestTimeout := requestTimeout,
    maxMessages := maxMessages, agentAttached := true }

def run (s : RoomState) (ops : List Op) : RoomState :=
  ops.foldl applyOp s

/-- A room with empty history and capacity `n` (only the history matters). -/
def emptyRoom (n : Nat) : RoomState :=
  { readyRoom 600000 n with maxMessages := n }

/-- A sequence of history appends, oldest first. -/
def appendAll (s : RoomState) (ms : List Msg) : RoomState :=
  ms.foldl addMsgRecord s

/-! ### Worktree manager (src/git/index.js)

The filesystem and the git subprocess are abstracted into explicit inputs:
the outcome of the `git worktree add` / `git worktree remove` invocations,
the `existsSync` answer for the worktree path, and an `FsEnv` carrying any
`realpathSync` answers (the source never actually reaches a `realpathSync`
call, see `removeWorktree`).  The side-effecting calls the code performs are
recorded as a `GitAction` trace so that "no deletion happened" is a
statement about the trace. -/

/-- `path.sep` (POSIX). -/
def sep : String := "/"

/-- `path.join` for the simple two-component joins the source performs (no
`..` segments ever occur in them). -/
def pathJoin (a b : String) : String := a ++ sep ++ b

/-- `path.basename`: the component after the last separator. -/
def basename (p : String) : String :=
  ⟨(p.data.reverse.takeWhile (fun c => c != '/')).reverse⟩

/-- Resolution results of `fs.realpathSync`: `realpath p = none` means the
call throws (or, with `throwIfNoEntry: false`, returns undefined).  The
manager under verification never reaches a `realpathSync` call (see
`removeWorktree`), so the environment only fixes what the filesystem would
have answered. -/
structure FsEnv where
  realpath : String → Option String

/-- One tracked entry of `this.worktrees`. -/
structure WorktreeInfo where
  path : String
  repoDirectory : String
  branch : String
deriving Repr, DecidableEq

/-- The manager's record map, a JS `Map` in insertion order. -/
structure GitManagerState where
  worktrees : List (String × WorktreeInfo)
deriving Repr, DecidableEq

def lookupWt (m : GitManagerState) (workspaceId : String) : Option WorktreeInfo :=
  (m.worktrees.find? (fun kv => kv.1 == workspaceId)).map (fun kv => kv.2)

/-- JS `Map.set`: update in place when the key exists, append otherwise. -/
def setAssoc : List (String × WorktreeInfo) → String → WorktreeInfo →
    List (String × WorktreeInfo)
  | [], k, v => [(k, v)]
  | kv :: rest, k, v =>
    if kv.1 == k then (k, v) :: rest else kv :: setAssoc rest k v

def insertWt (m : GitManagerState) (k : String) (v : WorktreeInfo) :
    GitManagerState :=
  ⟨setAssoc m.worktrees k v⟩

/-- JS `Map.delete`. -/
def delAssoc : List (String × WorktreeInfo) → String → List (String × WorktreeInfo)
  | [], _ => []
  | kv :: rest, k => if kv.1 == k then rest else kv :: delAssoc rest k

def deleteWt (m : GitManagerState) (k : String) : GitManagerState :=
  ⟨delAssoc m.worktrees k⟩

/-- The side-effecting calls `removeWorktree` can perform, in order. -/
inductive GitAction where
  /-- `git worktree remove [--force] path`. -/
  | worktreeRemove (path : String) (force : Bool)
  /-- `rmSync(path, recursive)` — the direct filesystem deletion. -/
  | rmRecursive (path : String)
  /-- `git worktree prune`. -/
  | worktreePrune
deriving Repr, DecidableEq

/-- The ReferenceError raised when the force-deletion fallback evaluates the
unbound identifier `require` (git/index.js line 298; the file is an ES
module, declared through import syntax). -/
def unboundRequireErrText : String := "ReferenceError: require is not defined"

/-- `GitManager.removeWorktree(workspaceId, force)` (git/index.js lines
275-346).  `gitRemoveErr` is the outcome of the native `git worktree remove`
(`none` = success), `pathExists` the `existsSync(worktreePath)` answer.
Returns the JS return value, the new record map and the action trace, or the
thrown error message.

The catch fallback (lines 293-338) never gets past its first step: after
computing the base path with the imported `join`, line 298 evaluates
`require('fs').realpathSync(worktreePath)`, and `require` is an unbound
identifier in this ES module (the containment checks at lines 302 and 319
likewise reference `sep`, which is never imported from the path module).
The ReferenceError therefore propagates out of the method before any safety
check runs, any "Safety check failed" message is built, or `rmSync` is
called — the guarded-deletion branch is dead code, which the embedding keeps
faithful instead of repairing. -/
def removeWorktree (_env : FsEnv) (_tmpdir : String) (m : GitManagerState)
    (workspaceId : String) (force : Bool)
    (gitRemoveErr : Option String) (pathExists : Bool) :
    Except String (Bool × GitManagerState × List GitAction) :=
  match lookupWt m workspaceId with
  | none => .ok (false, m, [])
  | some info =>
    let acts0 := [GitAction.worktreeRemove info.path force]
    match gitRemoveErr with
    | none => .ok (true, deleteWt m workspaceId, acts0)
    | some err =>
      if force && pathExists then .error unboundRequireErrText
      else .error err

/-- The JS return value of a successful `createWorktree`. -/
structure CreateResult where
  worktreePath : String
  branch : String
  isNew : Bool
  repoDirectory : String
deriving Repr, DecidableEq

/-- The deterministic worktree path: base directory + repo basename +
workspace id (git/index.js lines 221-226). -/
def worktreePathFor (tmpdir repoDirectory workspaceId : String) : String :=
  pathJoin (pathJoin tmpdir "bob-control-worktrees")
    (basename repoDirectory ++ "-" ++ workspaceId)

/-- `GitManager.createWorktree(repoDirectory, branchName, workspaceId)`
(git/index.js lines 205-268).  `repoExists`, `repoIsDir`, `isRepo` are the
filesystem/git validation answers, `branches` the `git branch` listing, and
`gitAddErr` the outcome of the `git worktree add` invocation (`none` =
success).  On success the record is stored; when the add fails with a message
containing "already exists" the call returns successfully without touching
the record map (the `worktrees.set` of the try block never ran); any other
add failure is rethrown. -/
def createWorktree (tmpdir : String) (m : GitManagerState)
    (repoDirectory branchName workspaceId : String)
    (repoExists repoIsDir isRepo : Bool) (branches : List String)
    (gitAddErr : Option String) :
    Except String (CreateResult × GitManagerState) :=
  if !repoExists then
    .error ("Repository directory does not exist: " ++ repoDirectory)
  else if !repoIsDir then
    .error ("Repository directory is not a directory: " ++ repoDirectory)
  else if !isRepo then
    .error (repoDirectory ++ " is not a git repository")
  else
    let worktreePath := worktreePathFor tmpdir repoDirectory workspaceId
    let branchExists := branches.contains branchName ||
                        branches.contains ("remotes/origin/" ++ branchName)
    match gitAddErr with
    | none =>
      .ok ({ worktreePath := worktreePath, branch := branchName,
             isNew := !branchExists, repoDirectory := repoDirectory },
           insertWt m workspaceId
             ⟨worktreePath, repoDirectory, branchName⟩)
    | some err =>
      if substrHas err "already exists" then
        .ok ({ worktreePath := worktreePath, branch := branchName,
               isNew := false, repoDirectory := repoDirectory }, m)
      else .error err

/-! ### Error sanitization at the protocol boundary (src/server/index.js)

`BobServer.sanitizeError` applies six global regex replacements in order and
then truncates.  The replacements are embedded as character-list scanners
with JS `String.replace` semantics: left-to-right, non-overlapping, resume
after the replaced text.  A fuel argument equal to the input length keeps the
recursions structural; every step consumes at least one character, so the
fuel never runs out. -/

/-- The JS `\s` character class. -/
def isWsJS (c : Char) : Bool :=
  let n := c.toNat
  (0x9 ≤ n && n ≤ 0xD) || n == 0x20 || n == 0xA0 || n == 0x1680 ||
  (0x2000 ≤ n && n ≤ 0x200A) || n == 0x2028 || n == 0x2029 ||
  n == 0x202F || n == 0x205F || n == 0x3000 || n == 0xFEFF

/-- Characters the JS dot does not match. -/
def isLineTerm (c : Char) : Bool :=
  c == '\n' || c == '\r' || c.toNat == 0x2028 || c.toNat == 0x2029

def charEqCI (a b : Char) : Bool := a.toLower == b.toLower

def listStartsCI : List Char → List Char → Bool
  | [], _ => true
  | _ :: _, [] => false
  | a :: as, b :: bs => charEqCI a b && listStartsCI as bs

def redactedChars : List Char := "[redacted]".data

/-- One global replacement of a pattern of the shape
literal-prefix-then-nonempty-run (the home-path, Users-path, node_modules
and environment-variable patterns all have this shape). -/
def redactRun (pre : List Char) (ci : Bool) (runClass : Char → Bool) :
    Nat → List Char → List Char
  | 0, hay => hay
  | _ + 1, [] => []
  | fuel + 1, c :: rest =>
    let here := if ci then listStartsCI pre (c :: rest)
                else listStarts pre (c :: rest)
    if here then
      let after := (c :: rest).drop pre.length
      let runLen := (after.takeWhile runClass).length
      if runLen == 0 then c :: redactRun pre ci runClass fuel rest
      else redactedChars ++ redactRun pre ci runClass fuel (after.drop runLen)
    else c :: redactRun pre ci runClass fuel rest

def redactPrefixRun (pre : String) (ci : Bool) (runClass : Char → Bool)
    (s : String) : String :=
  ⟨redactRun pre.data ci runClass s.data.length s.data⟩

/-- Does `chars`, taken whole, match the regex tail `.+\(.+:\d+:\d+\)` ?
Scanning from the right is deterministic: the digit runs are bounded by
literal colons, and the remaining text must contain an opening parenthesis
that is neither its first nor its last character (so that both dotted groups
are nonempty). -/
def frameBody (chars : List Char) : Bool :=
  if chars.getLast? == some ')' then
    let rev := chars.dropLast.reverse
    let d2 := rev.takeWhile Char.isDigit
    if d2.isEmpty then false
    else
      let r1 := rev.drop d2.length
      if r1.head? == some ':' then
        let r2 := r1.drop 1
        let d1 := r2.takeWhile Char.isDigit
        if d1.isEmpty then false
        else
          let r3 := r2.drop d1.length
          if r3.head? == some ':' then
            ((r3.drop 1).drop 1).dropLast.contains '('
          else false
      else false
  else false

/-- The greedy end of the frame body: the longest nonempty prefix of `run`
matching `.+\(.+:\d+:\d+\)`. -/
def frameEndLoop : Nat → List Char → Option Nat
  | 0, _ => none
  | k + 1, run => if frameBody (run.take (k + 1)) then some (k + 1)
                  else frameEndLoop k run

def frameSearchEnd (run : List Char) : Option Nat :=
  frameEndLoop run.length run

/-- One global replacement of the stack-frame pattern
`\s+at\s+.+\(.+:\d+:\d+\)`.  The two whitespace runs are taken maximally
(backtracking them cannot help, since the following literal is not
whitespace), the dotted tail greedily. -/
def redactFrames : Nat → List Char → List Char
  | 0, hay => hay
  | _ + 1, [] => []
  | fuel + 1, c :: rest =>
    let hay := c :: rest
    let ws1 := hay.takeWhile isWsJS
    let attempt : Option Nat :=
      if ws1.isEmpty then none
      else
        let r1 := hay.drop ws1.length
        if listStarts "at".data r1 then
          let r2 := r1.drop 2
          let ws2 := r2.takeWhile isWsJS
          if ws2.isEmpty then none
          else
            let r3 := r2.drop ws2.length
            let dotRun := r3.takeWhile (fun ch => !isLineTerm ch)
            match frameSearchEnd dotRun with
            | some k => some (ws1.length + 2 + ws2.length + k)
            | none => none
        else none
    match attempt with
    | some len => redactedChars ++ redactFrames fuel (hay.drop len)
    | none => c :: redactFrames fuel rest

def notWsJS (c : Char) : Bool := !isWsJS c

def envVarClass (c : Char) : Bool := ('A' ≤ c && c ≤ 'Z') || c == '_'

/-- `BobServer.sanitizeError` (src/server/index.js lines 31-59): the six
replacements in source order, then truncation of messages longer than 500 to
500 characters plus an ellipsis. -/
def sanitizeError (message : String) : String :=
  let p1 := redactPrefixRun "/home/" false notWsJS message
  let p2 := redactPrefixRun "/Users/" false notWsJS p1
  let p3 := redactPrefixRun "C:\\Users\\" true notWsJS p2
  let p4 : String := ⟨redactFrames p3.data.length p3.data⟩
  let p5 := redactPrefixRun "node_modules/" false notWsJS p4
  let p6 := redactPrefixRun "$" false envVarClass p5
  if p6.length > 500 then ⟨p6.data.take 500⟩ ++ "..." else p6

/-- The catch of the websocket message handler in
`BobServer.handleConnection` (src/server/index.js lines 110-121): the error
payload sent to the client carries `error.message` verbatim — no call to
`sanitizeError` appears anywhere in the server. -/
def connectionErrorPayload (errMessage : String) : String := errMessage

/-! ### Room auto-naming

`Room.inferNameFromMessage` and `Room.autoNameFromMessage` are exercised by
src/server/room.test.js but are absent from the Room source in the tree, so
they are modelled from the specification. -/

def isTrailPunct (c : Char) : Bool :=
  c == '!' || c == '?' || c == '.' || c == ',' || c == ';' || c == ':'

def stripTrailingPunct (s : String) : String :=
  ⟨(s.data.reverse.dropWhile isTrailPunct).reverse⟩

/-- Split on spaces, dropping empty fragments. -/
def wordsAux (cur : List Char) : List Char → List String
  | [] => if cur.isEmpty then [] else [⟨cur.reverse⟩]
  | c :: rest =>
    if c == ' ' then
      if cur.isEmpty then wordsAux [] rest
      else (⟨cur.reverse⟩ : String) :: wordsAux [] rest
    else wordsAux (c :: cur) rest

def wordsOf (s : String) : List String :=
  wordsAux [] s.data

def dropLeadingWord (ws arts : List String) : List String :=
  match ws with
  | [] => []
  | w :: rest => if arts.contains w then rest else ws

def noiseWords : List String := ["bug", "issue", "error", "problem"]

def dropTrailingNoise (ws : List String) : List String :=
  match ws.getLast? with
  | none => []
  | some w => if noiseWords.contains w then ws.dropLast else ws

/-- Modelled from the spec: the intent-pattern match of the auto-namer
(§4.2) — `Room.inferNameFromMessage` is missing from the source tree.  The
message is matched against the ordered keyword groups (fix/debug,
add/implement/create/build/write, update/change/modify/refactor,
test/check/verify, remove/delete, review/look-at/analyze, help-with, else
the first few words), leading articles and trailing filler are stripped in
the subject, and trailing punctuation is removed. -/
def inferRawName (message : String) : String :=
  let ws := wordsOf message
  let subject : List String :=
    match ws with
    | "fix" :: rest | "debug" :: rest =>
      dropTrailingNoise (dropLeadingWord rest ["the", "a", "an"])
    | "add" :: rest | "implement" :: rest | "create" :: rest
    | "build" :: rest | "write" :: rest =>
      dropLeadingWord rest ["a", "an"]
    | "update" :: rest | "change" :: rest | "modify" :: rest
    | "refactor" :: rest =>
      dropLeadingWord rest ["the"]
    | "test" :: rest | "check" :: rest | "verify" :: rest =>
      dropLeadingWord rest ["the"]
    | "remove" :: rest | "delete" :: rest =>
      dropLeadingWord rest ["the"]
    | "review" :: rest | "analyze" :: rest =>
      dropLeadingWord rest ["the"]
    | "look" :: "at" :: rest =>
      dropLeadingWord rest ["the"]
    | "help" :: "me" :: "with" :: rest => rest
    | "help" :: "with" :: rest => rest
    | _ => ws.take 4
  stripTrailingPunct (String.intercalate " " subject)

/-- Modelled from the spec: truncate a derived name over 25 characters with
an ellipsis, and discard results shorter than 3 characters (§4.2, §8). -/
def inferNameFromMessage (message : String) : Option String :=
  let raw := inferRawName message
  let name := if raw.length > 25 then (⟨raw.data.take 22⟩ : String) ++ "..." else raw
  if name.length < 3 then none else some name

/-- Modelled from the spec: auto-naming applies only while the room has no
user-assigned custom name, and a discarded inference leaves the room name
unchanged. -/
def autoNameFromMessage (currentName : String) (customNamed : Bool)
    (message : String) : String :=
  if customNamed then currentName
  else
    match inferNameFromMessage message with
    | some n => n
    | none => currentName

/-- The five status values of the data model. -/
def validStatus (st : String) : Prop :=
  st = "initializing" ∨ st = "ready" ∨ st = "busy" ∨ st = "error" ∨ st = "stopped"

instance (st : String) : Decidable (validStatus st) := by
  unfold validStatus; infer_instance

/-- The history update of one `addMessage`, at the list level. -/
def pushTrim (n : Nat) (l : List Msg) (m : Msg) : List Msg :=
  trimHistory n (l ++ [m])

/-- A descriptive safety-violation failure: the message carries the
"Safety check failed" marker at its head. -/
def isSafetyViolationMsg (e : String) : Bool :=
  listStarts "Safety check failed".data e.data

instance {ε α : Type} [DecidableEq ε] [DecidableEq α] :
    DecidableEq (Except ε α) := fun x y =>
  match x, y with
  | .ok a, .ok b =>
    if h : a = b then .isTrue (by rw [h])
    else .isFalse (by intro hc; cases hc; exact h rfl)
  | .error a, .error b =>
    if h : a = b then .isTrue (by rw [h])
    else .isFalse (by intro hc; cases hc; exact h rfl)
  | .ok _, .error _ => .isFalse (by intro hc; cases hc)
  | .error _, .ok _ => .isFalse (by intro hc; cases hc)

end BobControl

/-! ## Helper lemmas -/

namespace BobControl

@[simp] lemma addMsgRecord_status (s : RoomState) (m : Msg) :
    (addMsgRecord s m).status = s.status := rfl

@[simp] lemma addMsgRecord_reqPresent (s : RoomState) (m : Msg) :
    (addMsgRecord s m).reqPresent = s.reqPresent := rfl

@[simp] lemma addMsgRecord_flight (s : RoomState) (m : Msg) :
    (addMsgRecord s m).flight = s.flight := rfl

@[simp] lemma addMsgRecord_maxMessages (s : RoomState) (m : Msg) :
    (addMsgRecord s m).maxMessages = s.maxMessages := rfl

@[simp] lemma addMsgRecord_procRunning (s : RoomState) (m : Msg) :
    (addMsgRecord s m).procRunning = s.procRunning := rfl

@[simp] lemma addMessage_status (s : RoomState) (role content : String) :
    (addMessage s role content).status = s.status := rfl

@[simp] lemma addMessage_reqPresent (s : RoomState) (role content : String) :
    (addMessage s role content).reqPresent = s.reqPresent := rfl

@[simp] lemma addMessage_flight (s : RoomState) (role content : String) :
    (addMessage s role content).flight = s.flight := rfl

@[simp] lemma addMessage_procRunning (s : RoomState) (role content : String) :
    (addMessage s role content).procRunning = s.procRunning := rfl

@[simp] lemma addMessage_maxMessages (s : RoomState) (role content : String) :
    (addMessage s role content).maxMessages = s.maxMessages := rfl

@[simp] lemma addMessage_requestTimeout (s : RoomState) (role content : String) :
    (addMessage s role content).requestTimeout = s.requestTimeout := rfl

lemma trimHistory_eq_drop (n : Nat) (l : List Msg) :
    trimHistory n l = l.drop (l.length - n) := by
  induction l with
  | nil => simp [trimHistory]
  | cons m rest ih =>
    rw [trimHistory]
    split
    · rename_i h
      have hn : n ≤ rest.length := by
        simp only [List.length_cons] at h; omega
      have hd : (m :: rest).length - n = (rest.length - n) + 1 := by
        simp only [List.length_cons]; omega
      rw [ih, hd, List.drop_succ_cons]
    · rename_i h
      have hd : (m :: rest).length - n = 0 := by
        simp only [List.length_cons]; simp only [List.length_cons] at h; omega
      rw [hd, List.drop_zero]

lemma trimHistory_of_le (n : Nat) (l : List Msg) (h : l.length ≤ n) :
    trimHistory n l = l := by
  rw [trimHistory_eq_drop, Nat.sub_eq_zero_of_le h, List.drop_zero]

lemma pushTrim_length_le (n : Nat) (l : List Msg) (m : Msg) :
    (pushTrim n l m).length ≤ n ∨ (pushTrim n l m).length = l.length + 1 := by
  rw [pushTrim, trimHistory_eq_drop, List.length_drop, List.length_append]
  simp only [List.length_cons, List.length_nil]
  omega

lemma foldl_pushTrim (n : Nat) (ms : List Msg) :
    ∀ l : List Msg, l.length ≤ n →
      ms.foldl (pushTrim n) l = (l ++ ms).drop ((l ++ ms).length - n) := by
  induction ms with
  | nil =>
    intro l hl
    simp [Nat.sub_eq_zero_of_le hl]
  | cons m rest ih =>
    intro l hl
    rw [List.foldl_cons]
    have hstep : pushTrim n l m = (l ++ [m]).drop ((l ++ [m]).length - n) := by
      rw [pushTrim, trimHistory_eq_drop]
    have hlen : (pushTrim n l m).length ≤ n := by
      rw [hstep, List.length_drop]; omega
    have hd : (l ++ [m]).length - n ≤ (l ++ [m]).length := Nat.sub_le _ _
    rw [ih _ hlen, hstep, ← List.drop_append_of_le_length hd, List.drop_drop]
    have hassoc : l ++ [m] ++ rest = l ++ m :: rest := by simp
    rw [hassoc]
    congr 1
    simp only [List.length_drop, List.length_append, List.length_cons,
      List.length_nil]
    omega

lemma appendAll_messages (ms : List Msg) :
    ∀ s : RoomState,
      (appendAll s ms).messages = ms.foldl (pushTrim s.maxMessages) s.messages := by
  induction ms with
  | nil => intro s; rfl
  | cons m rest ih =>
    intro s
    show (appendAll (addMsgRecord s m) rest).messages = _
    rw [ih]
    rfl

lemma find?_setAssoc (l : List (String × WorktreeInfo)) (k : String)
    (v : WorktreeInfo) :
    (setAssoc l k v).find? (fun kv => kv.1 == k) = some (k, v) := by
  induction l with
  | nil => simp [setAssoc, List.find?]
  | cons kv rest ih =>
    rw [setAssoc]
    by_cases h : kv.1 == k
    · simp [h, List.find?]
    · simp only [h, Bool.false_eq_true, if_false]
      rw [List.find?]
      simp only [h]
      exact ih

lemma lookupWt_insertWt (m : GitManagerState) (k : String) (v : WorktreeInfo) :
    lookupWt (insertWt m k v) k = some v := by
  simp [lookupWt, insertWt, find?_setAssoc]

/-! ## Claim theorems -/

/-- C4: for every sequence of `N + k` message appends (`k ≥ 0`) to a room
with history capacity `N`, the retained history has length `min (N, N + k)`
and equals exactly the most recent `N` appended messages in append order
(eviction drops only the oldest). -/
theorem c4_bounded_history (N k : Nat) (ms : List Msg) (h : ms.length = N + k) :
    (appendAll (emptyRoom N) ms).messages.length = min N (N + k) ∧
    (appendAll (emptyRoom N) ms).messages = ms.drop k := by
  have hmax : (emptyRoom N).maxMessages = N := rfl
  have hmsgs : (emptyRoom N).messages = ([] : List Msg) := rfl
  have hfold := appendAll_messages ms (emptyRoom N)
  rw [hmax, hmsgs] at hfold
  have hform := foldl_pushTrim N ms [] (by simp)
  simp only [List.nil_append] at hform
  rw [hfold, hform, h]
  constructor
  · rw [List.length_drop, h]
    omega
  · congr 1
    omega

/-- C4 witness: capacity 2, three appends retain the last two in order. -/
theorem c4_bounded_history_witness :
    ([Msg.mk "user" "a", Msg.mk "agent" "b", Msg.mk "user" "c"] : List Msg).length
        = 2 + 1 ∧
    (appendAll (emptyRoom 2)
        [Msg.mk "user" "a", Msg.mk "agent" "b", Msg.mk "user" "c"]).messages.length
        = min 2 (2 + 1) ∧
    (appendAll (emptyRoom 2)
        [Msg.mk "user" "a", Msg.mk "agent" "b", Msg.mk "user" "c"]).messages
        = [Msg.mk "agent" "b", Msg.mk "user" "c"] := by
  have h := c4_bounded_history 2 1
    [Msg.mk "user" "a", Msg.mk "agent" "b", Msg.mk "user" "c"] (by decide)
  exact ⟨by decide, h.1, by rw [h.2]; decide⟩

/-- C5: a `sendToAgent` on a room whose status is already `busy` fails
immediately with the Busy error and performs no state change: no status
transition, no appended user message, no second pending request. -/
theorem c5_busy_send_rejected (s : RoomState) (c : String)
    (hAgent : s.agentAttached = true) (hBusy : s.status = "busy") :
    sendStart s c = Except.error busyErrText ∧ applyOp s (Op.send c) = s := by
  have hs : sendStart s c = Except.error busyErrText := by
    simp [sendStart, hAgent, hBusy]
  exact ⟨hs, by simp [applyOp, hs]⟩

/-- C5 witness: the second send into a concretely busy room is rejected
untouched. -/
theorem c5_busy_send_rejected_witness :
    sendStart (run (readyRoom 600000 1000) [Op.send "first task"]) "second task"
      = Except.error busyErrText ∧
    applyOp (run (readyRoom 600000 1000) [Op.send "first task"])
        (Op.send "second task")
      = run (readyRoom 600000 1000) [Op.send "first task"] :=
  c5_busy_send_rejected _ _ (by decide) (by decide)

/-- C6: `cancel()` with no pending request returns false and appends
nothing; with a pending request it returns true, appends exactly one system
message, and the settlement of the in-flight send — whichever racer fires —
leaves the room status `ready`. -/
theorem c6_cancel_semantics :
    (∀ s : RoomState, s.reqPresent = false → cancel s = (false, s)) ∧
    (∀ (s : RoomState) (b : Bool), s.reqPresent = true → s.flight = some b →
      s.messages.length < s.maxMessages →
      (cancel s).1 = true ∧
      (cancel s).2.messages = s.messages ++ [Msg.mk "system" cancelledErrText] ∧
      ∀ o : Outcome, (settle (cancel s).2 o).1.status = "ready") := by
  constructor
  · intro s h
    simp [cancel, h]
  · intro s b hreq hflight hroom
    have hmsgs : (cancel s).2.messages
        = s.messages ++ [Msg.mk "system" cancelledErrText] := by
      simp only [cancel, hreq, if_true]
      show trimHistory s.maxMessages
          (s.messages ++ [Msg.mk "system" cancelledErrText]) = _
      exact trimHistory_of_le _ _ (by simp; omega)
    refine ⟨by simp [cancel, hreq], hmsgs, ?_⟩
    intro o
    have hflight2 : (cancel s).2.flight = some true := by
      simp [cancel, hreq, hflight]
    cases o with
    | success resp => simp [settle, hflight2]
    | timeout => simp [settle, hflight2]
    | cancelledReject => simp [settle, hflight2]
    | agentFailure msg => simp [settle, hflight2]

/-- C6 witness: an idle room ignores cancel; a concretely busy room is
cancelled, gains one system message, and settles to `ready` under the
timeout racer. -/
theorem c6_cancel_semantics_witness :
    cancel (readyRoom 600000 1000) = (false, readyRoom 600000 1000) ∧
    (cancel (run (readyRoom 600000 1000) [Op.send "long job"])).1 = true ∧
    (cancel (run (readyRoom 600000 1000) [Op.send "long job"])).2.messages
      = (run (readyRoom 600000 1000) [Op.send "long job"]).messages
        ++ [Msg.mk "system" cancelledErrText] ∧
    (settle (cancel (run (readyRoom 600000 1000) [Op.send "long job"])).2
        Outcome.timeout).1.status = "ready" := by
  have h1 := c6_cancel_semantics.1 (readyRoom 600000 1000) (by decide)
  have h2 := c6_cancel_semantics.2 (run (readyRoom 600000 1000) [Op.send "long job"])
    false (by decide) (by decide) (by decide)
  exact ⟨h1, h2.1, h2.2.1, h2.2.2 Outcome.timeout⟩

/-- C10: removing an untracked workspace id returns false immediately, with
no git invocation, no filesystem deletion, and an unchanged record map. -/
theorem c10_remove_untracked (env : FsEnv) (tmpdir : String)
    (m : GitManagerState) (workspaceId : String) (force : Bool)
    (gitRemoveErr : Option String) (pathExists : Bool)
    (h : lookupWt m workspaceId = none) :
    removeWorktree env tmpdir m workspaceId force gitRemoveErr pathExists
      = .ok (false, m, []) := by
  simp [removeWorktree, h]

/-- C10 witness: a fresh manager ignores a removal request for an unknown
workspace. -/
theorem c10_remove_untracked_witness :
    removeWorktree ⟨fun _ => none⟩ "/tmp" ⟨[]⟩ "w1" true none true
      = .ok (false, ⟨[]⟩, []) :=
  c10_remove_untracked _ _ _ _ _ _ _ (by decide)

/-- C9: the auto-naming examples of the specification, over the
spec-modelled inferrer: fix-pattern extraction, add-pattern extraction, a
too-short message producing no rename, and truncation of any derived name
over 25 characters to one that ends in an ellipsis. -/
theorem c9_auto_naming :
    inferNameFromMessage "fix the login bug" = some "login" ∧
    inferNameFromMessage "add dark mode toggle" = some "dark mode toggle" ∧
    inferNameFromMessage "hi" = none ∧
    autoNameFromMessage "room-test-123" false "hi" = "room-test-123" ∧
    ∀ msg : String, 25 < (inferRawName msg).length →
      ∃ stem : String,
        inferNameFromMessage msg = some (stem ++ "...") ∧
        (stem ++ "...").length = 25 := by
  refine ⟨by decide, by decide, by decide, by decide, ?_⟩
  intro msg h
  have hdots : ("..." : String).length = 3 := rfl
  have h22 : (String.mk ((inferRawName msg).data.take 22)).length = 22 := by
    show ((inferRawName msg).data.take 22).length = 22
    rw [List.length_take]
    have hd : 25 < (inferRawName msg).data.length := h
    omega
  refine ⟨⟨(inferRawName msg).data.take 22⟩, ?_, ?_⟩
  · have hlen3 : ¬ (((⟨(inferRawName msg).data.take 22⟩ : String) ++ "...").length < 3) := by
      rw [String.length_append, h22, hdots]
      omega
    simp only [inferNameFromMessage]
    rw [if_pos h, if_neg hlen3]
  · rw [String.length_append, h22, hdots]

/-- C9 witness: a concrete over-long fix-message is truncated to 25
characters ending in the ellipsis. -/
theorem c9_auto_naming_witness :
    25 < (inferRawName "fix the incredibly long and complex authentication and authorization system").length ∧
    ∃ stem : String,
      inferNameFromMessage "fix the incredibly long and complex authentication and authorization system"
        = some (stem ++ "...") ∧
      (stem ++ "...").length = 25 :=
  ⟨by decide,
   c9_auto_naming.2.2.2.2
     "fix the incredibly long and complex authentication and authorization system"
     (by decide)⟩

/-- C8 counterexample: when `git worktree add` fails with an
"already exists" message, `createWorktree` returns successfully but records
nothing — a fresh manager still has no Worktree Record for the workspace id
after the successful call, contradicting the claim that every successful
return leaves a record keyed by the workspace id. -/
theorem c8_counterexample :
    createWorktree "/tmp" ⟨[]⟩ "/repos/myrepo" "feature-x" "w1" true true true []
        (some "fatal: /tmp/bob-control-worktrees/myrepo-w1 already exists")
      = .ok ({ worktreePath := "/tmp/bob-control-worktrees/myrepo-w1",
               branch := "feature-x", isNew := false,
               repoDirectory := "/repos/myrepo" }, ⟨[]⟩) ∧
    lookupWt ⟨[]⟩ "w1" = none := by
  exact ⟨by decide, rfl⟩

/-- C8 amended: a `createWorktree` whose `git worktree add` succeeds records
a Worktree Record keyed by the workspace id holding the deterministic path
(base + repo basename + workspace id); when the add fails with an
"already exists" message the call still returns successfully with the same
deterministic path, but the record map is left unchanged. -/
theorem c8_create_records :
    (∀ (tmpdir : String) (m : GitManagerState)
       (repoDir branch wid : String) (branches : List String),
      createWorktree tmpdir m repoDir branch wid true true true branches none
        = .ok ({ worktreePath := worktreePathFor tmpdir repoDir wid,
                 branch := branch,
                 isNew := !(branches.contains branch
                   || branches.contains ("remotes/origin/" ++ branch)),
                 repoDirectory := repoDir },
               insertWt m wid
                 ⟨worktreePathFor tmpdir repoDir wid, repoDir, branch⟩) ∧
      lookupWt (insertWt m wid
          ⟨worktreePathFor tmpdir repoDir wid, repoDir, branch⟩) wid
        = some ⟨worktreePathFor tmpdir repoDir wid, repoDir, branch⟩) ∧
    (∀ (tmpdir : String) (m : GitManagerState)
       (repoDir branch wid : String) (branches : List String) (err : String),
      substrHas err "already exists" = true →
      createWorktree tmpdir m repoDir branch wid true true true branches
          (some err)
        = .ok ({ worktreePath := worktreePathFor tmpdir repoDir wid,
                 branch := branch, isNew := false,
                 repoDirectory := repoDir }, m)) := by
  constructor
  · intro tmpdir m repoDir branch wid branches
    exact ⟨by simp [createWorktree], lookupWt_insertWt m wid _⟩
  · intro tmpdir m repoDir branch wid branches err herr
    simp [createWorktree, herr]

/-- C8 witness: a concrete already-exists failure returns success with the
deterministic path and an untouched record map. -/
theorem c8_create_records_witness :
    substrHas "fatal: /tmp/bob-control-worktrees/myrepo-w2 already exists"
        "already exists" = true ∧
    createWorktree "/tmp" ⟨[("w1", ⟨"/tmp/bob-control-worktrees/other-w1", "/repos/other", "main"⟩)]⟩
        "/repos/myrepo" "feature-y" "w2" true true true []
        (some "fatal: /tmp/bob-control-worktrees/myrepo-w2 already exists")
      = .ok ({ worktreePath := worktreePathFor "/tmp" "/repos/myrepo" "w2",
               branch := "feature-y", isNew := false,
               repoDirectory := "/repos/myrepo" },
             ⟨[("w1", ⟨"/tmp/bob-control-worktrees/other-w1", "/repos/other", "main"⟩)]⟩) :=
  ⟨by decide,
   c8_create_records.2 "/tmp"
     ⟨[("w1", ⟨"/tmp/bob-control-worktrees/other-w1", "/repos/other", "main"⟩)]⟩
     "/repos/myrepo" "feature-y" "w2" []
     "fatal: /tmp/bob-control-worktrees/myrepo-w2 already exists" (by decide)⟩

/-- C2 counterexample: a send that times out settles as a timeout failure,
but the room status becomes `error`, not `ready` — `cancelled ? 'ready' :
'error'` runs with the flag unset, so the claim that status returns to
`ready` on timeout is false on the code. -/
theorem c2_counterexample :
    (settle (run (readyRoom 600000 1000) [Op.send "build the feature"])
        Outcome.timeout).2
      = Except.error "Request timed out after 600s" ∧
    (settle (run (readyRoom 600000 1000) [Op.send "build the feature"])
        Outcome.timeout).1.status = "error" ∧
    ¬ (settle (run (readyRoom 600000 1000) [Op.send "build the feature"])
        Outcome.timeout).1.status = "ready" := by
  refine ⟨by decide, by decide, by decide⟩

/-- C2 amended: a send that times out settles as a timeout failure, the
agent subprocess is terminated and the pending request cleared, but the
status becomes `error`; status returns to `ready` at settlement exactly when
the request had been cancelled (any settlement outcome) or the send
succeeded — not on timeout. -/
theorem c2_timeout_settlement :
    (∀ s : RoomState, s.flight = some false →
      (settle s Outcome.timeout).2
          = Except.error (timeoutErrText s.requestTimeout) ∧
      (settle s Outcome.timeout).1.procRunning = false ∧
      (settle s Outcome.timeout).1.reqPresent = false ∧
      (settle s Outcome.timeout).1.status = "error") ∧
    (∀ (s : RoomState) (o : Outcome), s.flight = some true →
      (settle s o).1.status = "ready") := by
  constructor
  · intro s h
    refine ⟨?_, ?_, ?_, ?_⟩ <;> simp [settle, h, outcomeErrText]
  · intro s o h
    cases o with
    | success resp => simp [settle, h]
    | timeout => simp [settle, h]
    | cancelledReject => simp [settle, h]
    | agentFailure msg => simp [settle, h]

/-- C2 witness: a concrete in-flight send settles its timeout as `error`
status with the process killed, and a concrete cancelled one settles to
`ready`. -/
theorem c2_timeout_settlement_witness :
    (settle (run (readyRoom 600000 1000) [Op.send "job"]) Outcome.timeout).2
      = Except.error (timeoutErrText
          (run (readyRoom 600000 1000) [Op.send "job"]).requestTimeout) ∧
    (settle (run (readyRoom 600000 1000) [Op.send "job"]) Outcome.timeout).1.status
      = "error" ∧
    (settle (run (readyRoom 600000 1000) [Op.send "job", Op.cancelOp])
        Outcome.cancelledReject).1.status = "ready" := by
  have h1 := c2_timeout_settlement.1 (run (readyRoom 600000 1000) [Op.send "job"])
    (by decide)
  have h2 := c2_timeout_settlement.2
    (run (readyRoom 600000 1000) [Op.send "job", Op.cancelOp])
    Outcome.cancelledReject (by decide)
  exact ⟨h1.1, h1.2.2.2, h2⟩

/-- C1: the claimed force-deletion guard does not exist in the program.
The catch fallback of `removeWorktree` evaluates the unbound identifier
`require` (git/index.js line 298; `sep` at lines 302 and 319 is likewise
never imported) before any safety check runs, so for every tracked workspace
whose native git removal fails under `force` with the path present, the call
throws the ReferenceError: no direct filesystem deletion is ever performed
and no descriptive safety-violation error is ever produced. -/
theorem c1_force_fallback_reference_error
    (env : FsEnv) (tmpdir : String) (m : GitManagerState) (wid : String)
    (info : WorktreeInfo) (err : String)
    (hlook : lookupWt m wid = some info) :
    removeWorktree env tmpdir m wid true (some err) true
      = .error unboundRequireErrText ∧
    isSafetyViolationMsg unboundRequireErrText = false := by
  constructor
  · simp [removeWorktree, hlook]
  · decide

/-- C1 witness: a concrete tracked worktree whose native removal fails under
force makes the fallback throw the ReferenceError — not a safety-violation
message, and no deletion. -/
theorem c1_force_fallback_reference_error_witness :
    removeWorktree ⟨fun p => some p⟩ "/tmp"
        ⟨[("w1", ⟨"/tmp/bob-control-worktrees/myrepo-w1", "/repos/myrepo", "b1"⟩)]⟩
        "w1" true (some "worktree locked") true
      = .error unboundRequireErrText ∧
    isSafetyViolationMsg unboundRequireErrText = false :=
  c1_force_fallback_reference_error ⟨fun p => some p⟩ "/tmp"
    ⟨[("w1", ⟨"/tmp/bob-control-worktrees/myrepo-w1", "/repos/myrepo", "b1"⟩)]⟩
    "w1" ⟨"/tmp/bob-control-worktrees/myrepo-w1", "/repos/myrepo", "b1"⟩
    "worktree locked" (by decide)

/-- C7: the error payload the websocket handler sends on a failing inbound
message carries the raw error text — it is not the sanitized form.  At a
concrete error message holding a home-directory path, the payload equals the
raw message, still contains the home path, and differs from what
`sanitizeError` (which the server defines for exactly this purpose but never
invokes) would have produced. -/
theorem c7_unsanitized_error_reaches_client :
    connectionErrorPayload "EACCES: permission denied /home/alice/.ssh/id_rsa"
      = "EACCES: permission denied /home/alice/.ssh/id_rsa" ∧
    substrHas (connectionErrorPayload
        "EACCES: permission denied /home/alice/.ssh/id_rsa") "/home/" = true ∧
    sanitizeError "EACCES: permission denied /home/alice/.ssh/id_rsa"
      = "EACCES: permission denied [redacted]" ∧
    connectionErrorPayload "EACCES: permission denied /home/alice/.ssh/id_rsa"
      ≠ sanitizeError "EACCES: permission denied /home/alice/.ssh/id_rsa" := by
  refine ⟨rfl, by decide, by decide, by decide⟩

lemma sendStart_ok (s : RoomState) (c : String) (s' : RoomState)
    (h : sendStart s c = .ok s') :
    s'.status = "busy" ∧ s'.reqPresent = true := by
  unfold sendStart at h
  split at h
  · exact absurd h (by simp)
  · split at h
    · exact absurd h (by simp)
    · simp only [Except.ok.injEq] at h
      subst h
      exact ⟨rfl, rfl⟩

lemma validStatus_applyOp (s : RoomState) (op : Op)
    (h : validStatus s.status) : validStatus (applyOp s op).status := by
  cases op with
  | send c =>
    simp only [applyOp]
    cases hE : sendStart s c with
    | error e => exact h
    | ok s' =>
      have := (sendStart_ok s c s' hE).1
      simp [this, validStatus]
  | settleEvt o =>
    simp only [applyOp]
    cases hf : s.flight with
    | none => simp [settle, hf]; exact h
    | some b =>
      cases o with
      | success r => simp [settle, hf, validStatus]
      | timeout => cases b <;> simp [settle, hf, validStatus]
      | cancelledReject => cases b <;> simp [settle, hf, validStatus]
      | agentFailure msg => cases b <;> simp [settle, hf, validStatus]
  | cancelOp =>
    simp only [applyOp]
    by_cases hr : s.reqPresent <;> simp [cancel, hr] <;> exact h
  | resetOp =>
    simp [applyOp, resetStatus, validStatus]
  | agentStatus a =>
    cases a <;> simp [applyOp, agentStatusEvt, AgentStatus.toStr, validStatus]
  | agentMsg m =>
    simpa [applyOp, agentMessageEvt] using h
  | agentErr e =>
    simpa [applyOp, agentErrorEvt] using h

lemma busyIff_applyOp (s : RoomState) (op : Op)
    (hop : op.isAgentStatusEvt = false)
    (h : s.status = "busy" ↔ s.reqPresent = true) :
    (applyOp s op).status = "busy" ↔ (applyOp s op).reqPresent = true := by
  cases op with
  | send c =>
    simp only [applyOp]
    cases hE : sendStart s c with
    | error e => exact h
    | ok s' =>
      have hs := sendStart_ok s c s' hE
      simp [hs.1, hs.2]
  | settleEvt o =>
    simp only [applyOp]
    cases hf : s.flight with
    | none => simp [settle, hf]; exact h
    | some b =>
      cases o with
      | success r => simp [settle, hf]
      | timeout => cases b <;> simp [settle, hf]
      | cancelledReject => cases b <;> simp [settle, hf]
      | agentFailure msg => cases b <;> simp [settle, hf]
  | cancelOp =>
    simp only [applyOp]
    by_cases hr : s.reqPresent <;> simp [cancel, hr] <;> simp [hr] at h <;>
      simp [h, hr]
  | resetOp =>
    simp [applyOp, resetStatus]
  | agentStatus a =>
    simp [Op.isAgentStatusEvt] at hop
  | agentMsg m =>
    simpa [applyOp, agentMessageEvt] using h
  | agentErr e =>
    simpa [applyOp, agentErrorEvt] using h

lemma run_validStatus (ops : List Op) :
    ∀ s : RoomState, validStatus s.status → validStatus (run s ops).status := by
  induction ops with
  | nil => intro s h; exact h
  | cons op rest ih =>
    intro s h
    exact ih (applyOp s op) (validStatus_applyOp s op h)

lemma run_busyIff (ops : List Op) :
    ∀ s : RoomState, (∀ op ∈ ops, op.isAgentStatusEvt = false) →
      (s.status = "busy" ↔ s.reqPresent = true) →
      ((run s ops).status = "busy" ↔ (run s ops).reqPresent = true) := by
  induction ops with
  | nil => intro s _ h; exact h
  | cons op rest ih =>
    intro s hops h
    exact ih (applyOp s op) (fun o ho => hops o (List.mem_cons_of_mem op ho))
      (busyIff_applyOp s op (hops op (List.mem_cons_self op rest)) h)

/-- C3 counterexample: an agent `status` event arriving while a send is in
flight leaves the room with a PendingRequest but a non-`busy` status, so
"busy iff a PendingRequest exists" is false over the claimed operation set
(sendToAgent, cancel, resetStatus, agent event callbacks). -/
theorem c3_counterexample :
    (run (readyRoom 600000 1000)
        [Op.send "deploy the fix", Op.agentStatus AgentStatus.ready]).reqPresent
      = true ∧
    ¬ (run (readyRoom 600000 1000)
        [Op.send "deploy the fix", Op.agentStatus AgentStatus.ready]).status
      = "busy" := by
  exact ⟨by decide, by decide⟩

/-- C3 amended: over every operation sequence the status stays within the
five defined states; and over every sequence free of agent `status`
callbacks, status equals `busy` exactly when a PendingRequest exists.  An
agent status event can overwrite `busy` while the request is still pending,
which is the only amendment the counterexample forces. -/
theorem c3_status_invariant (t mm : Nat) (ops : List Op) :
    validStatus (run (readyRoom t mm) ops).status ∧
    ((∀ op ∈ ops, op.isAgentStatusEvt = false) →
      ((run (readyRoom t mm) ops).status = "busy" ↔
        (run (readyRoom t mm) ops).reqPresent = true)) :=
  ⟨run_validStatus ops _ (Or.inr (Or.inl rfl)),
   fun hops => run_busyIff ops _ hops (by
     have h1 : (readyRoom t mm).status = "ready" := rfl
     have h2 : (readyRoom t mm).reqPresent = false := rfl
     rw [h1, h2]
     constructor <;> intro hx <;> simp at hx)⟩

/-- C3 witness: a concrete send/settle/cancel sequence with no agent status
events satisfies both invariant parts. -/
theorem c3_status_invariant_witness :
    validStatus (run (readyRoom 600000 1000)
        [Op.send "task one", Op.settleEvt (Outcome.success "done"),
         Op.cancelOp]).status ∧
    ((run (readyRoom 600000 1000)
        [Op.send "task one", Op.settleEvt (Outcome.success "done"),
         Op.cancelOp]).status = "busy" ↔
      (run (readyRoom 600000 1000)
        [Op.send "task one", Op.settleEvt (Outcome.success "done"),
         Op.cancelOp]).reqPresent = true) :=
  ⟨(c3_status_invariant 600000 1000 _).1,
   (c3_status_invariant 600000 1000 _).2 (by decide)⟩

end BobControl
